import Mathlib

/-!
Shallow embedding of `aiida_phonopy/workchains/qha.py`: the `phonopy_qha`
aggregation workfunction and the `QHAPhonopy` workchain (input ports,
`create_unit_cell_expansions` planning step, `calculate_qha` fan-in step).
Machine floats are modelled as exact rationals; NumPy helpers
(`np.linspace`, `np.diag`, `np.average`, transposition `.T`) are modelled
below on lists of rationals.  Python exceptions (KeyError on a missing
keyword, TypeError on subscripting a non-mapping) are modelled with
`Except`.
-/

instance exceptDecEq {ε α : Type} [DecidableEq ε] [DecidableEq α] :
    DecidableEq (Except ε α) := fun x y =>
  match x, y with
  | .ok a, .ok b =>
      if h : a = b then .isTrue (h ▸ rfl)
      else .isFalse (fun hc => h (Except.ok.inj hc))
  | .error a, .error b =>
      if h : a = b then .isTrue (h ▸ rfl)
      else .isFalse (fun hc => h (Except.error.inj hc))
  | .ok _, .error _ => .isFalse (fun hc => Except.noConfusion hc)
  | .error _, .ok _ => .isFalse (fun hc => Except.noConfusion hc)

/-- Model of Python's `str.lower()` restricted to the ASCII strings used as
keyword names in the source. -/
def pyLower (s : String) : String := String.mk (s.data.map Char.toLower)

/-- Contiguous-sublist test on character lists, used to model Python's
substring operator `in`. -/
def infixB (pat : List Char) : List Char → Bool
  | [] => pat.isEmpty
  | c :: cs => pat.isPrefixOf (c :: cs) || infixB pat cs

/-- Model of Python's `pat in s` substring containment test. -/
def strContains (s pat : String) : Bool := infixB pat.data s.data

/-- Model of `np.linspace(start, stop, num)` with the default
`endpoint=True`: `num` evenly spaced values from `start` to `stop`
inclusive; `num = 0` gives the empty array and `num = 1` gives `[start]`. -/
def np_linspace (start stop : ℚ) (num : ℕ) : List ℚ :=
  if num ≤ 1 then List.replicate num start
  else (List.range num).map
    (fun i : ℕ => start + (stop - start) * (i : ℚ) / ((num - 1 : ℕ) : ℚ))

/-- Model of `np.diag` on a two-dimensional array: the list of entries
`m[i][i]`. -/
def npDiag (m : List (List ℚ)) : List ℚ :=
  (List.range m.length).filterMap (fun i => (m.get? i).bind (fun row => row.get? i))

/-- Model of `np.average` on a one-dimensional array: sum divided by
length (the source never averages an empty array on the paths modelled
here). -/
def npAverage (l : List ℚ) : ℚ := l.sum / l.length

/-- Model of `.T` on a rectangular two-dimensional `np.array` built from a
list of rows that all have the length of the first row. -/
def npT (m : List (List ℚ)) : List (List ℚ) :=
  (List.range (m.headD []).length).map (fun t => m.map (fun row => row.getD t 0))

/-- StructureData node: of a crystal structure, only the derived cell
volume is consumed by this workchain. -/
structure Structure where
  cell_volume : ℚ
deriving DecidableEq

/-- Model of `StructureData.get_cell_volume`. -/
def Structure.get_cell_volume (s : Structure) : ℚ := s.cell_volume

/-- The `optimized_data` ParameterData node of one phonon sub-workchain:
the scalar energy and the stress tensor read via `.dict.energy` and
`.dict.stress`. -/
structure OutputData where
  energy : ℚ
  stress : List (List ℚ)
deriving DecidableEq

/-- Modelled from the spec: the thermal-properties table produced by one
phonon sub-workchain (the producing workchain `phonopy.phonon` is not under
src).  Per the spec it holds parallel per-temperature sequences of entropy,
free energy and heat capacity plus the temperature axis itself; `qha.py`
reads the axis under the literal key string `temperture`. -/
structure ThermalProps where
  entropy : List ℚ
  free_energy : List ℚ
  heat_capacity : List ℚ
  temperture : List ℚ
deriving DecidableEq

/-- A value bound to one keyword argument of `phonopy_qha`. -/
inductive Value where
  | structureVal : Structure → Value
  | outputDataVal : OutputData → Value
  | thermalVal : ThermalProps → Value
deriving DecidableEq

/-- Python exceptions observable in the modelled code: `KeyError` from
popping a missing keyword and `TypeError` from subscripting a value that is
not a mapping. -/
inductive PyErr where
  | keyError : String → PyErr
  | typeError : String → PyErr
deriving DecidableEq

/-- The `**kwargs` bag of `phonopy_qha`, modelled as an association list
(a Python dict has pairwise distinct keys; the list order plays the role of
insertion/arrival order and is irrelevant to lookups). -/
abbrev Kwargs := List (String × Value)

/-- Dict lookup by key.  `kwargs.pop(k)` in the source both reads and
removes; since every key is popped at most once, reading without removal is
observationally equal on dicts (distinct keys). -/
def lookupKw (kwargs : Kwargs) (k : String) : Option Value :=
  (kwargs.find? (fun p => p.1 == k)).map (fun p => p.2)

/-- Model of `len([key for key, value in kwargs.items() if 'structure_' in
key.lower()])` from `phonopy_qha`. -/
def n_structures (kwargs : Kwargs) : ℕ :=
  (kwargs.filter (fun p => strContains (pyLower p.1) "structure_")).length

/-- Model of `kwargs.pop('structure_{i}').get_cell_volume()`'s lookup: a
missing key raises KeyError; a non-StructureData value would fail the
attribute access (modelled as TypeError). -/
def popStructure (kwargs : Kwargs) (k : String) : Except PyErr Structure :=
  match lookupKw kwargs k with
  | none => .error (.keyError k)
  | some (.structureVal s) => .ok s
  | some _ => .error (.typeError k)

/-- Lookup of `output_data_{i}`, as `popStructure`. -/
def popOutputData (kwargs : Kwargs) (k : String) : Except PyErr OutputData :=
  match lookupKw kwargs k with
  | none => .error (.keyError k)
  | some (.outputDataVal d) => .ok d
  | some _ => .error (.typeError k)

/-- Lookup of `thermal_properties_{i}`, as `popStructure`. -/
def popThermal (kwargs : Kwargs) (k : String) : Except PyErr ThermalProps :=
  match lookupKw kwargs k with
  | none => .error (.keyError k)
  | some (.thermalVal t) => .ok t
  | some _ => .error (.typeError k)

/-- The three records read for one index `i` in the body of the
`for i in range(n_structures)` loop of `phonopy_qha`. -/
structure ResultTriple where
  struct : Structure
  odata : OutputData
  tprops : ThermalProps
deriving DecidableEq

/-- One iteration of the aggregation loop of `phonopy_qha`: the three
keyed pops for index `i`, in source order. -/
def stepResult (kwargs : Kwargs) (i : ℕ) : Except PyErr ResultTriple := do
  let s ← popStructure kwargs ("structure_" ++ toString i)
  let d ← popOutputData kwargs ("output_data_" ++ toString i)
  let t ← popThermal kwargs ("thermal_properties_" ++ toString i)
  pure ⟨s, d, t⟩

/-- The whole `for i in range(n)` loop of `phonopy_qha`, stopping at the
first raised exception. -/
def collectResults (kwargs : Kwargs) (n : ℕ) : Except PyErr (List ResultTriple) :=
  (List.range n).mapM (stepResult kwargs)

/-- The column arrays built by `phonopy_qha` before it calls the external
reduction routine `get_qha`: the eos arrays (volumes, energies, stresses),
the three thermal matrices exactly as the source orients them
(`entropy` and `cv` transposed via `.T`, `free_energy` not transposed), and
the `temperature` variable, which starts as `None` and is overwritten on
every loop iteration. -/
structure QhaArrays where
  volumes : List ℚ
  energies : List ℚ
  stresses : List ℚ
  entropy : List (List ℚ)
  free_energy : List (List ℚ)
  cv : List (List ℚ)
  temperature : Option (List ℚ)
deriving DecidableEq

/-- The array-building part of `phonopy_qha`: count the keywords whose
lowercased key contains the substring `structure_`, loop over the indices
popping the three records each, then form the arrays exactly as the source
does. -/
def phonopy_qha_arrays (kwargs : Kwargs) : Except PyErr QhaArrays := do
  let rs ← collectResults kwargs (n_structures kwargs)
  pure ⟨rs.map (fun r => r.struct.get_cell_volume),
        rs.map (fun r => r.odata.energy),
        rs.map (fun r => npAverage (npDiag r.odata.stress)),
        npT (rs.map (fun r => r.tprops.entropy)),
        rs.map (fun r => r.tprops.free_energy),
        npT (rs.map (fun r => r.tprops.heat_capacity)),
        rs.getLast?.map (fun r => r.tprops.temperture)⟩

/-- An ArrayData node as used for the published result: named numeric
arrays. -/
abbrev ArrayDataT := List (String × List ℚ)

/-- The value returned by `phonopy_qha`.  The source's final statement is
`return {'qha_results', qha_results}` — a Python set literal with two
elements (a string and the ArrayData node), not a dict — so the return
value is modelled as either that set or a proper dict. -/
inductive QhaReturn where
  | pySet : String → ArrayDataT → QhaReturn
  | pyDict : List (String × ArrayDataT) → QhaReturn
deriving DecidableEq

/-- Python subscription `v[k]` on a `QhaReturn` value: a dict looks the key
up (KeyError when absent); a set is not subscriptable and raises
TypeError. -/
def getItem (v : QhaReturn) (k : String) : Except PyErr ArrayDataT :=
  match v with
  | .pySet _ _ => .error (.typeError "set object is not subscriptable")
  | .pyDict entries =>
      match entries.find? (fun p => p.1 == k) with
      | some p => .ok p.2
      | none => .error (.keyError k)

/-- The full `phonopy_qha` workfunction, with the external reduction
routine passed in as `get_qha` (modelled from the spec: the
equation-of-state/thermodynamic reduction `get_qha` lives in
`aiida_phonopy.workchains.gruneisen`, which is not under src and is out of
scope; it is kept abstract as any function from the aggregated arrays to a
named mapping of numeric arrays).  After building the arrays the source
stores each entry of the reduction output into an ArrayData node and then
returns the set literal `{'qha_results', qha_results}`. -/
def phonopy_qha (get_qha : QhaArrays → List (String × List ℚ))
    (kwargs : Kwargs) : Except PyErr QhaReturn := do
  let arrays ← phonopy_qha_arrays kwargs
  let qha_results : ArrayDataT := get_qha arrays
  pure (.pySet "qha_results" qha_results)

/-- The outputs of one completed phonon sub-workchain, as read by
`QHAPhonopy.calculate_qha` from the context (`.out.structure`,
`.out.optimized_data`, `.out.thermal_properties`). -/
structure PhononOut where
  structureOut : Structure
  optimized_data : OutputData
  thermal_properties : ThermalProps
deriving DecidableEq

/-- The `input_qha` keyword bag built by `QHAPhonopy.calculate_qha`: for
each index `i` the three keys `structure_i`, `output_data_i`,
`thermal_properties_i` bound to the outputs of the phonon sub-workchain
stored under index `i`. -/
def build_input_qha (ps : List PhononOut) : Kwargs :=
  ps.enum.flatMap (fun p =>
    [("structure_" ++ toString p.1, Value.structureVal p.2.structureOut),
     ("output_data_" ++ toString p.1, Value.outputDataVal p.2.optimized_data),
     ("thermal_properties_" ++ toString p.1, Value.thermalVal p.2.thermal_properties)])

/-- The `QHAPhonopy.calculate_qha` step: build `input_qha` indexed by the
planning-time index, call `phonopy_qha`, then publish
`qha_results['qha_results']` via `self.out`.  The returned value is the one
published output of the run; an error is an uncaught Python exception. -/
def calculate_qha (get_qha : QhaArrays → List (String × List ℚ))
    (ps : List PhononOut) : Except PyErr ArrayDataT := do
  let qha_results ← phonopy_qha get_qha (build_input_qha ps)
  getItem qha_results "qha_results"

/-- The `QHAPhonopy.create_unit_cell_expansions` planning step reduced to
its numeric content: read `stress_range[0]` and `stress_range[-1]` from the
prediction (an index error on an empty array is modelled as `none`), form
`stress_delta`, and sample `num_expansions` stresses with `np.linspace`
over the interval expanded by half the delta on each side. -/
def create_unit_cell_expansions (stress_range : List ℚ) (num_expansions : ℕ) :
    Option (List ℚ) :=
  match stress_range.head?, stress_range.getLast? with
  | some lo, some hi =>
      some (np_linspace (lo - (hi - lo) * 0.5) (hi + (hi - lo) * 0.5) num_expansions)
  | _, _ => none

/-- The fan-out loop of `create_unit_cell_expansions`: one phonon
sub-workchain submission per sampled stress, recorded in the context under
the key `phonon_i` with the stress passed as pressure. -/
def fan_out_submissions (stress_samples : List ℚ) : List (String × ℚ) :=
  stress_samples.enum.map (fun p => ("phonon_" ++ toString p.1, p.2))

/-- Default value of an optional input port of the workchain spec. -/
inductive PortDefault where
  | intDefault : ℤ → PortDefault
  | boolDefault : Bool → PortDefault
deriving DecidableEq

/-- One input port declared by `QHAPhonopy.define` (aiida ports are
required unless declared with `required=False`). -/
structure InputPort where
  name : String
  required : Bool
  default : Option PortDefault
deriving DecidableEq

/-- The input ports declared by `QHAPhonopy.define`, in source order. -/
def QHAPhonopy_define : List InputPort :=
  [⟨"structure", true, none⟩,
   ⟨"ph_settings", true, none⟩,
   ⟨"es_settings", true, none⟩,
   ⟨"num_expansions", false, some (.intDefault 10)⟩,
   ⟨"use_nac", false, some (.boolDefault true)⟩]

/-- Lookup of a declared input port by name. -/
def findPort (n : String) : Option InputPort :=
  QHAPhonopy_define.find? (fun p => p.name == n)

/-- Predicate on the outcome of a workchain step: `true` when a value was
returned (and hence published via `self.out`), `false` when a Python
exception escaped. -/
def publishes (r : Except PyErr ArrayDataT) : Bool :=
  match r with
  | .ok _ => true
  | .error _ => false

/-- The `ResultTriple` held by one phonon sub-workchain output record. -/
def tripleOf (p : PhononOut) : ResultTriple :=
  ⟨p.structureOut, p.optimized_data, p.thermal_properties⟩

/-- Placeholder record used only as the default of list indexing inside
proofs. -/
def dfltPhonon : PhononOut := ⟨⟨0⟩, ⟨0, []⟩, ⟨[], [], [], []⟩⟩

/-- Checks that a binding found under a `structure_i` key (when present)
holds a StructureData node, so that the attribute access
`.get_cell_volume()` in the source cannot fail. -/
def okStructureOpt : Option Value → Bool
  | some (.outputDataVal _) => false
  | some (.thermalVal _) => false
  | _ => true

/-- As `okStructureOpt`, for `output_data_i` keys. -/
def okOutputOpt : Option Value → Bool
  | some (.structureVal _) => false
  | some (.thermalVal _) => false
  | _ => true

/-- As `okStructureOpt`, for `thermal_properties_i` keys. -/
def okThermalOpt : Option Value → Bool
  | some (.structureVal _) => false
  | some (.outputDataVal _) => false
  | _ => true

/-- Every binding the loop of `phonopy_qha` would read for index `i` is,
when present, of the node type the source then uses. -/
abbrev typedAt (kwargs : Kwargs) (i : ℕ) : Prop :=
  okStructureOpt (lookupKw kwargs ("structure_" ++ toString i)) = true
  ∧ okOutputOpt (lookupKw kwargs ("output_data_" ++ toString i)) = true
  ∧ okThermalOpt (lookupKw kwargs ("thermal_properties_" ++ toString i)) = true

/-- At least one of the three keys the loop of `phonopy_qha` reads for
index `i` is absent from the keyword bag. -/
abbrev missingAt (kwargs : Kwargs) (i : ℕ) : Prop :=
  lookupKw kwargs ("structure_" ++ toString i) = none
  ∨ lookupKw kwargs ("output_data_" ++ toString i) = none
  ∨ lookupKw kwargs ("thermal_properties_" ++ toString i) = none

/-- Concrete sub-workchain output used in witnesses: volume 10, energy
-10, stress diagonal (1, 2, 3), three-point temperature axis. -/
def exPhonon0 : PhononOut :=
  ⟨⟨10⟩, ⟨-10, [[1, 0, 0], [0, 2, 0], [0, 0, 3]]⟩,
   ⟨[1, 2, 3], [1, 2, 3], [1, 2, 3], [0, 150, 300]⟩⟩

/-- Second concrete sub-workchain output: volume 11, energy -9, and a
temperature axis that differs from `exPhonon0`'s in length and values. -/
def exPhonon1 : PhononOut :=
  ⟨⟨11⟩, ⟨-9, [[3, 0, 0], [0, 3, 0], [0, 0, 3]]⟩,
   ⟨[4, 5, 6], [4, 5, 6], [4, 5, 6], [1, 2]⟩⟩

/-- The keyword bag `calculate_qha` would build from the two concrete
results, reordered (a different dict insertion / completion order). -/
def kwShuffled : Kwargs :=
  [("thermal_properties_1", Value.thermalVal exPhonon1.thermal_properties),
   ("structure_1", Value.structureVal exPhonon1.structureOut),
   ("output_data_0", Value.outputDataVal exPhonon0.optimized_data),
   ("thermal_properties_0", Value.thermalVal exPhonon0.thermal_properties),
   ("output_data_1", Value.outputDataVal exPhonon1.optimized_data),
   ("structure_0", Value.structureVal exPhonon0.structureOut)]

/-- A keyword bag whose `structure_` count is 2 but in which the key
`output_data_1` is absent. -/
def badKw : Kwargs :=
  [("structure_0", Value.structureVal ⟨10⟩),
   ("output_data_0", Value.outputDataVal ⟨-10, [[1]]⟩),
   ("thermal_properties_0", Value.thermalVal ⟨[1], [1], [1], [0]⟩),
   ("structure_1", Value.structureVal ⟨11⟩),
   ("thermal_properties_1", Value.thermalVal ⟨[2], [2], [2], [0]⟩)]

theorem np_linspace_length (start stop : ℚ) (n : ℕ) :
    (np_linspace start stop n).length = n := by
  rw [np_linspace]
  split <;> simp

theorem np_linspace_getElem (start stop : ℚ) {n : ℕ} (h2 : 2 ≤ n) {i : ℕ} (hi : i < n) :
    (np_linspace start stop n)[i]?
      = some (start + (stop - start) * i / ((n - 1 : ℕ) : ℚ)) := by
  rw [np_linspace, if_neg (by omega)]
  rw [List.getElem?_map, List.getElem?_range hi, Option.map_some']

/-- Claim C4: for a stress range read as `[lo, hi]` and two or more
samples, the planner produces exactly `sampleCount` values linearly spaced
over the interval expanded by half the range on each side, inclusive of
both endpoints, ascending with the index; the claim's further assertion
that this also holds for `sampleCount = 1` fails (see the
counterexample), so the statement is proved for `sampleCount ≥ 2`. -/
theorem planner_linear_sampling (lo hi : ℚ) (n : ℕ) (h2 : 2 ≤ n) :
    ∃ samples, create_unit_cell_expansions [lo, hi] n = some samples
      ∧ samples.length = n
      ∧ (∀ i : ℕ, i < n → samples[i]? =
          some (lo - (hi - lo) * 0.5 + 2 * (hi - lo) * i / ((n - 1 : ℕ) : ℚ)))
      ∧ samples.head? = some (lo - (hi - lo) * 0.5)
      ∧ samples.getLast? = some (hi + (hi - lo) * 0.5)
      ∧ (∀ i : ℕ, i + 1 < n →
          samples.getD (i + 1) 0 - samples.getD i 0
            = 2 * (hi - lo) / ((n - 1 : ℕ) : ℚ))
      ∧ (lo ≤ hi → ∀ i : ℕ, i + 1 < n →
          samples.getD i 0 ≤ samples.getD (i + 1) 0) := by
  have hn1 : ((n - 1 : ℕ) : ℚ) ≠ 0 := Nat.cast_ne_zero.mpr (by omega)
  have hgetD : ∀ i : ℕ, i < n →
      (np_linspace (lo - (hi - lo) * 0.5) (hi + (hi - lo) * 0.5) n).getD i 0
        = lo - (hi - lo) * 0.5 + 2 * (hi - lo) * i / ((n - 1 : ℕ) : ℚ) := by
    intro i hi0
    rw [List.getD_eq_getElem?_getD, np_linspace_getElem _ _ h2 hi0, Option.getD_some]
    ring
  refine ⟨np_linspace (lo - (hi - lo) * 0.5) (hi + (hi - lo) * 0.5) n, rfl,
    np_linspace_length _ _ _, ?_, ?_, ?_, ?_, ?_⟩
  · intro i hi0
    rw [np_linspace_getElem _ _ h2 hi0]
    congr 1
    ring
  · rw [List.head?_eq_getElem?, np_linspace_getElem _ _ h2 (show 0 < n by omega)]
    norm_num
  · rw [List.getLast?_eq_getElem?, np_linspace_length,
      np_linspace_getElem _ _ h2 (show n - 1 < n by omega)]
    congr 1
    rw [mul_div_assoc, div_self hn1, mul_one]
    ring
  · intro i h1
    rw [hgetD _ h1, hgetD _ (by omega)]
    have hs : ((i + 1 : ℕ) : ℚ) = (i : ℚ) + 1 := by push_cast; ring
    rw [hs]
    ring
  · intro hle i h1
    rw [hgetD _ h1, hgetD _ (by omega)]
    have hcpos : (0 : ℚ) < ((n - 1 : ℕ) : ℚ) := by
      exact_mod_cast Nat.pos_of_ne_zero (by omega)
    have hmul : 2 * (hi - lo) * (i : ℚ) ≤ 2 * (hi - lo) * ((i + 1 : ℕ) : ℚ) := by
      apply mul_le_mul_of_nonneg_left _ (by linarith)
      exact_mod_cast Nat.le_succ i
    have hd := div_le_div_of_nonneg_right hmul hcpos.le
    linarith


/-- Witness for claim C4 at the spec's own example: stress range
`[2.0, 8.0]` with four samples gives exactly `[-1, 3, 7, 11]`, and the
proved sampling theorem applies there. -/
theorem planner_linear_sampling_witness :
    create_unit_cell_expansions [2, 8] 4 = some [-1, 3, 7, 11]
    ∧ ∃ samples, create_unit_cell_expansions [2, 8] 4 = some samples
        ∧ samples.length = 4
        ∧ samples.head? = some (-1) ∧ samples.getLast? = some 11 := by
  constructor
  · norm_num [create_unit_cell_expansions, np_linspace, List.range_succ]
  · obtain ⟨s, hs, hlen, hitem, hhead, hlast, hdiff, hmono⟩ :=
      planner_linear_sampling 2 8 4 (by norm_num)
    refine ⟨s, hs, hlen, ?_, ?_⟩
    · rw [hhead]; norm_num
    · rw [hlast]; norm_num

/-- Counterexample to claim C4 as stated: the claim quantifies over every
`sampleCount ≥ 1`, but for `sampleCount = 1` on range `[2, 8]` the planner
produces the single value `-1` (the left endpoint of the expanded interval
`[-1, 11]` only), so the produced values are not inclusive of both
endpoints: `11` is absent. -/
theorem single_sample_excludes_right_endpoint :
    create_unit_cell_expansions [2, 8] 1 = some [-1]
    ∧ (11 : ℚ) ∉ [(-1 : ℚ)] := by
  constructor
  · norm_num [create_unit_cell_expansions, np_linspace]
  · norm_num

/-- Claim C5: a degenerate stress range with `lo = hi` still produces
exactly `sampleCount` samples, all with the identical stress value `lo`,
with no special-casing in the planner. -/
theorem planner_degenerate_range (v : ℚ) (n : ℕ) (h1 : 1 ≤ n) :
    create_unit_cell_expansions [v, v] n = some (List.replicate n v) := by
  have hc : create_unit_cell_expansions [v, v] n
      = some (np_linspace (v - (v - v) * 0.5) (v + (v - v) * 0.5) n) := rfl
  rw [hc]
  congr 1
  rw [np_linspace]
  split
  · congr 1
    ring
  · have hf : (fun i : ℕ => v - (v - v) * 0.5
        + ((v + (v - v) * 0.5) - (v - (v - v) * 0.5)) * (i : ℚ) / ((n - 1 : ℕ) : ℚ))
        = fun _ : ℕ => v := by
      funext i
      ring
    rw [hf, List.map_const', List.length_range]

/-- Witness for claim C5 at the spec's example: range `[5, 5]` with three
samples yields three stresses all equal to `5`. -/
theorem planner_degenerate_range_witness :
    create_unit_cell_expansions [5, 5] 3 = some [5, 5, 5] ∧ (1 : ℕ) ≤ 3 := by
  refine ⟨?_, by norm_num⟩
  rw [planner_degenerate_range 5 3 (by norm_num)]
  rfl

/-- Counterexample to claim C6: with `sampleCount = 0` the planning step
does not fail with a configuration error — `np.linspace` simply returns an
empty sample array and planning succeeds (the result is `some`, not an
error), so no rejection of `N = 0` happens anywhere in the workchain. -/
theorem zero_samples_not_rejected :
    create_unit_cell_expansions [2, 8] 0 = some [] := rfl

/-- Amended claim C6: `sampleCount = 0` is not rejected as a configuration
error.  Planning succeeds with an empty sample list, the fan-out loop
submits zero sub-tasks, and aggregation then runs over zero results,
producing empty arrays and no temperature axis; only the external
reduction routine could fail afterwards. -/
theorem zero_samples_empty_run (lo hi : ℚ) :
    create_unit_cell_expansions [lo, hi] 0 = some []
    ∧ fan_out_submissions [] = []
    ∧ phonopy_qha_arrays (build_input_qha []) = .ok ⟨[], [], [], [], [], [], none⟩ :=
  ⟨rfl, rfl, rfl⟩

/-- Claim C8: `QHAPhonopy.define` declares the physical settings
(`ph_settings`) and the electronic-structure/solver settings
(`es_settings`) as required inputs, while the sampling width
(`num_expansions`) is optional with default `Int(10)` and the long-range
correction flag (`use_nac`) is optional with default `Bool(True)`. -/
theorem define_ports_required_and_defaults :
    findPort "ph_settings" = some ⟨"ph_settings", true, none⟩
    ∧ findPort "es_settings" = some ⟨"es_settings", true, none⟩
    ∧ findPort "num_expansions"
        = some ⟨"num_expansions", false, some (.intDefault 10)⟩
    ∧ findPort "use_nac" = some ⟨"use_nac", false, some (.boolDefault true)⟩
    ∧ findPort "structure" = some ⟨"structure", true, none⟩ := by
  decide

theorem ebind_ok {α β : Type} (a : α) (f : α → Except PyErr β) :
    (Except.ok a >>= f) = f a := rfl

theorem ebind_error {α β : Type} (e : PyErr) (f : α → Except PyErr β) :
    ((Except.error e : Except PyErr α) >>= f) = .error e := rfl

theorem stepResult_eq (kw : Kwargs) (i : ℕ) :
    stepResult kw i
      = (popStructure kw ("structure_" ++ toString i) >>= fun s =>
         popOutputData kw ("output_data_" ++ toString i) >>= fun d =>
         popThermal kw ("thermal_properties_" ++ toString i) >>= fun t =>
         pure ⟨s, d, t⟩) := rfl

theorem popStructure_none {kw : Kwargs} {k : String}
    (h : lookupKw kw k = none) : popStructure kw k = .error (.keyError k) := by
  rw [popStructure, h]

theorem popStructure_some {kw : Kwargs} {k : String} {s : Structure}
    (h : lookupKw kw k = some (.structureVal s)) : popStructure kw k = .ok s := by
  rw [popStructure, h]

theorem popOutputData_none {kw : Kwargs} {k : String}
    (h : lookupKw kw k = none) : popOutputData kw k = .error (.keyError k) := by
  rw [popOutputData, h]

theorem popOutputData_some {kw : Kwargs} {k : String} {d : OutputData}
    (h : lookupKw kw k = some (.outputDataVal d)) : popOutputData kw k = .ok d := by
  rw [popOutputData, h]

theorem popThermal_none {kw : Kwargs} {k : String}
    (h : lookupKw kw k = none) : popThermal kw k = .error (.keyError k) := by
  rw [popThermal, h]

theorem popThermal_some {kw : Kwargs} {k : String} {t : ThermalProps}
    (h : lookupKw kw k = some (.thermalVal t)) : popThermal kw k = .ok t := by
  rw [popThermal, h]

theorem lookupKw_cons (a : String × Value) (t : Kwargs) (k : String) :
    lookupKw (a :: t) k = if a.1 == k then some a.2 else lookupKw t k := by
  cases h : (a.1 == k) <;> simp [lookupKw, List.find?_cons, h]

theorem lookup_of_nodup_mem : ∀ {l : Kwargs} {k : String} {v : Value},
    (l.map Prod.fst).Nodup → (k, v) ∈ l → lookupKw l k = some v := by
  intro l
  induction l with
  | nil => intro k v _ hm; cases hm
  | cons a t ih =>
    intro k v hnd hm
    rw [List.map_cons, List.nodup_cons] at hnd
    rcases List.mem_cons.mp hm with heq | hmt
    · subst heq
      rw [lookupKw_cons]
      simp
    · rw [lookupKw_cons]
      have hne : (a.1 == k) = false := by
        apply beq_eq_false_iff_ne.mpr
        intro hkeq
        exact hnd.1 (hkeq ▸ List.mem_map_of_mem Prod.fst hmt)
      rw [hne]
      simp only [Bool.false_eq_true, if_false]
      exact ih hnd.2 hmt

theorem mapM_ok_of_forall {α β : Type} (g : α → Except PyErr β) (f : α → β) :
    ∀ (l : List α), (∀ a ∈ l, g a = .ok (f a)) → l.mapM g = .ok (l.map f) := by
  intro l
  induction l with
  | nil => intro _; rfl
  | cons a t ih =>
    intro h
    rw [List.mapM_cons, h a (List.mem_cons_self a t),
      ih (fun x hx => h x (List.mem_cons_of_mem a hx))]
    rfl

theorem mem_build (ps : List PhononOut) {i : ℕ} (h : i < ps.length) :
    ("structure_" ++ toString i,
        Value.structureVal (ps.getD i dfltPhonon).structureOut) ∈ build_input_qha ps
    ∧ ("output_data_" ++ toString i,
        Value.outputDataVal (ps.getD i dfltPhonon).optimized_data) ∈ build_input_qha ps
    ∧ ("thermal_properties_" ++ toString i,
        Value.thermalVal (ps.getD i dfltPhonon).thermal_properties) ∈ build_input_qha ps := by
  have hp : (i, ps.getD i dfltPhonon) ∈ ps.enum := by
    rw [List.mem_enum_iff_getElem?]
    rw [List.getElem?_eq_getElem h, List.getD_eq_getElem?_getD, List.getElem?_eq_getElem h]
    rfl
  refine ⟨?_, ?_, ?_⟩ <;>
    exact List.mem_flatMap.mpr ⟨(i, ps.getD i dfltPhonon), hp, by simp⟩

theorem range_map_getD {β : Type} (f : PhononOut → β) :
    ∀ (ps : List PhononOut),
      (List.range ps.length).map (fun i => f (ps.getD i dfltPhonon)) = ps.map f := by
  intro ps
  induction ps with
  | nil => rfl
  | cons a t ih =>
    have hcomp : ((fun i => f ((a :: t).getD i dfltPhonon)) ∘ Nat.succ)
        = fun i => f (t.getD i dfltPhonon) := funext fun i => rfl
    rw [List.length_cons, List.range_succ_eq_map, List.map_cons, List.map_map, hcomp, ih,
      List.map_cons, List.getD_cons_zero]

theorem stepResult_build (ps : List PhononOut)
    (hnd : ((build_input_qha ps).map Prod.fst).Nodup) {i : ℕ} (h : i < ps.length) :
    stepResult (build_input_qha ps) i = .ok (tripleOf (ps.getD i dfltPhonon)) := by
  obtain ⟨h1, h2, h3⟩ := mem_build ps h
  rw [stepResult_eq, popStructure_some (lookup_of_nodup_mem hnd h1), ebind_ok,
    popOutputData_some (lookup_of_nodup_mem hnd h2), ebind_ok,
    popThermal_some (lookup_of_nodup_mem hnd h3), ebind_ok]
  rfl

theorem collect_build (ps : List PhononOut)
    (hnd : ((build_input_qha ps).map Prod.fst).Nodup) :
    collectResults (build_input_qha ps) ps.length = .ok (ps.map tripleOf) := by
  have hall : ∀ i ∈ List.range ps.length,
      stepResult (build_input_qha ps) i = .ok (tripleOf (ps.getD i dfltPhonon)) :=
    fun i hi0 => stepResult_build ps hnd (List.mem_range.mp hi0)
  rw [collectResults, mapM_ok_of_forall _ _ _ hall, range_map_getD]

theorem build_ok (ps : List PhononOut)
    (hnd : ((build_input_qha ps).map Prod.fst).Nodup)
    (hct : n_structures (build_input_qha ps) = ps.length) :
    phonopy_qha_arrays (build_input_qha ps)
      = .ok ⟨ps.map (fun p => p.structureOut.get_cell_volume),
             ps.map (fun p => p.optimized_data.energy),
             ps.map (fun p => npAverage (npDiag p.optimized_data.stress)),
             npT (ps.map (fun p => p.thermal_properties.entropy)),
             ps.map (fun p => p.thermal_properties.free_energy),
             npT (ps.map (fun p => p.thermal_properties.heat_capacity)),
             ps.getLast?.map (fun p => p.thermal_properties.temperture)⟩ := by
  rw [phonopy_qha_arrays, hct, collect_build ps hnd, ebind_ok]
  simp only [List.map_map, List.getLast?_map, Option.map_map]
  rfl

theorem npT_length (m : List (List ℚ)) : (npT m).length = (m.headD []).length := by
  rw [npT, List.length_map, List.length_range]

theorem npT_getElem (m : List (List ℚ)) {t : ℕ} (h : t < (m.headD []).length) :
    (npT m)[t]? = some (m.map (fun row => row.getD t 0)) := by
  rw [npT, List.getElem?_map, List.getElem?_range h, Option.map_some']

theorem npT_row_length (m : List (List ℚ)) :
    ∀ row ∈ npT m, row.length = m.length := by
  intro row hr
  rw [npT] at hr
  obtain ⟨t, _, rfl⟩ := List.mem_map.mp hr
  rw [List.length_map]

/-- Counterexample to claim C2: on two results whose temperature axes
differ both in length and in values, aggregation raises no error at all —
it succeeds and the output temperature axis is the one of the LAST result
(the `temperature` variable is overwritten on every loop iteration), not
the first, and no comparison of axes is ever made. -/
theorem temperature_axis_mismatch_accepted :
    (phonopy_qha_arrays
        (build_input_qha [exPhonon0, exPhonon1])).toOption.map QhaArrays.temperature
      = some (some [1, 2])
    ∧ exPhonon0.thermal_properties.temperture = [0, 150, 300]
    ∧ ¬ ([1, 2] : List ℚ) = [0, 150, 300] := by
  refine ⟨by decide, rfl, by decide⟩

/-- Amended claim C2: the temperature axis of the aggregated arrays is
taken from the last result (each loop iteration overwrites it); axes of
the different results are never compared, so a mismatch is silently
overwritten rather than reported. -/
theorem temperature_axis_taken_from_last (ps : List PhononOut)
    (hnd : ((build_input_qha ps).map Prod.fst).Nodup)
    (hct : n_structures (build_input_qha ps) = ps.length) :
    (phonopy_qha_arrays (build_input_qha ps)).toOption.map QhaArrays.temperature
      = some (ps.getLast?.map (fun p => p.thermal_properties.temperture)) := by
  rw [build_ok ps hnd hct]
  rfl

/-- Witness for the amended claim C2 on the two concrete results with
mismatched axes. -/
theorem temperature_axis_taken_from_last_witness :
    (phonopy_qha_arrays
        (build_input_qha [exPhonon0, exPhonon1])).toOption.map QhaArrays.temperature
      = some (some [1, 2]) := by
  rw [temperature_axis_taken_from_last [exPhonon0, exPhonon1] (by decide) (by decide)]
  rfl

/-- Counterexample to claim C3: the aggregated free-energy matrix of the
two concrete results is `[[1,2,3],[4,5,6]]` — sample-major, shape 2 by 3 —
whereas a transposition into temperature-major form would give
`[[1,4],[2,5],[3,6]]`; the source transposes entropy and heat capacity but
not free energy. -/
theorem free_energy_left_sample_major :
    (phonopy_qha_arrays
        (build_input_qha [exPhonon0, exPhonon1])).toOption.map QhaArrays.free_energy
      = some [[1, 2, 3], [4, 5, 6]]
    ∧ npT [[1, 2, 3], [4, 5, 6]] = [[1, 4], [2, 5], [3, 6]]
    ∧ ¬ ([[1, 2, 3], [4, 5, 6]] : List (List ℚ)) = [[1, 4], [2, 5], [3, 6]] := by
  refine ⟨by decide, by decide, by decide⟩

/-- Amended claim C3: of the three thermal collections, entropy and heat
capacity are transposed into temperature-major matrices of shape T by N
(row `t` lists the per-sample values at temperature `t`), while the
free-energy collection is passed on sample-major (N rows of length T),
untransposed. -/
theorem thermal_matrices_orientation (ps : List PhononOut) (T : ℕ)
    (hnd : ((build_input_qha ps).map Prod.fst).Nodup)
    (hct : n_structures (build_input_qha ps) = ps.length)
    (hne : ps ≠ [])
    (hT : ∀ p ∈ ps, p.thermal_properties.entropy.length = T
        ∧ p.thermal_properties.heat_capacity.length = T) :
    ∃ A, phonopy_qha_arrays (build_input_qha ps) = .ok A
      ∧ A.entropy.length = T
      ∧ A.cv.length = T
      ∧ (∀ row ∈ A.entropy, row.length = ps.length)
      ∧ (∀ row ∈ A.cv, row.length = ps.length)
      ∧ (∀ t : ℕ, t < T →
          A.entropy[t]?
            = some (ps.map (fun p => p.thermal_properties.entropy.getD t 0))
          ∧ A.cv[t]?
            = some (ps.map (fun p => p.thermal_properties.heat_capacity.getD t 0)))
      ∧ A.free_energy = ps.map (fun p => p.thermal_properties.free_energy) := by
  have hheadE :
      (((ps.map (fun p => p.thermal_properties.entropy)).headD [])).length = T := by
    cases ps with
    | nil => exact absurd rfl hne
    | cons a t => exact (hT a (List.mem_cons_self a t)).1
  have hheadC :
      (((ps.map (fun p => p.thermal_properties.heat_capacity)).headD [])).length = T := by
    cases ps with
    | nil => exact absurd rfl hne
    | cons a t => exact (hT a (List.mem_cons_self a t)).2
  refine ⟨_, build_ok ps hnd hct, ?_, ?_, ?_, ?_, ?_, rfl⟩
  · show (npT (ps.map (fun p => p.thermal_properties.entropy))).length = T
    rw [npT_length, hheadE]
  · show (npT (ps.map (fun p => p.thermal_properties.heat_capacity))).length = T
    rw [npT_length, hheadC]
  · show ∀ row ∈ npT (ps.map (fun p => p.thermal_properties.entropy)),
        row.length = ps.length
    intro row hr
    exact (npT_row_length _ _ hr).trans (List.length_map _ _)
  · show ∀ row ∈ npT (ps.map (fun p => p.thermal_properties.heat_capacity)),
        row.length = ps.length
    intro row hr
    exact (npT_row_length _ _ hr).trans (List.length_map _ _)
  · intro t ht
    constructor
    · show (npT (ps.map (fun p => p.thermal_properties.entropy)))[t]? = _
      rw [npT_getElem _ (hheadE.symm ▸ ht), List.map_map]
      rfl
    · show (npT (ps.map (fun p => p.thermal_properties.heat_capacity)))[t]? = _
      rw [npT_getElem _ (hheadC.symm ▸ ht), List.map_map]
      rfl

/-- Witness for the amended claim C3 on the two concrete results: three
temperature rows for entropy, and the free-energy matrix kept sample-major
as `[[1,2,3],[4,5,6]]`. -/
theorem thermal_matrices_orientation_witness :
    ∃ A, phonopy_qha_arrays (build_input_qha [exPhonon0, exPhonon1]) = .ok A
      ∧ A.entropy.length = 3
      ∧ A.free_energy = [[1, 2, 3], [4, 5, 6]] := by
  obtain ⟨A, hA, hlenE, _, _, _, _, hfe⟩ :=
    thermal_matrices_orientation [exPhonon0, exPhonon1] 3
      (by decide) (by decide) (by decide) (by decide)
  refine ⟨A, hA, hlenE, ?_⟩
  rw [hfe]
  rfl

/-- Claim C7: position `i` of the stresses array is the average of the
diagonal of the `i`-th result's stress tensor, and positions `i` of the
volumes and energies arrays are the `i`-th result's cell volume and scalar
energy taken verbatim. -/
theorem eos_columns_by_index (ps : List PhononOut)
    (hnd : ((build_input_qha ps).map Prod.fst).Nodup)
    (hct : n_structures (build_input_qha ps) = ps.length) :
    ∃ A, phonopy_qha_arrays (build_input_qha ps) = .ok A
      ∧ (∀ i : ℕ,
          A.volumes[i]? = ps[i]?.map (fun p => p.structureOut.get_cell_volume)
          ∧ A.energies[i]? = ps[i]?.map (fun p => p.optimized_data.energy)
          ∧ A.stresses[i]?
              = ps[i]?.map (fun p => npAverage (npDiag p.optimized_data.stress))) := by
  refine ⟨_, build_ok ps hnd hct, fun i => ⟨?_, ?_, ?_⟩⟩
  · show (ps.map (fun p => p.structureOut.get_cell_volume))[i]? = _
    rw [List.getElem?_map]
  · show (ps.map (fun p => p.optimized_data.energy))[i]? = _
    rw [List.getElem?_map]
  · show (ps.map (fun p => npAverage (npDiag p.optimized_data.stress)))[i]? = _
    rw [List.getElem?_map]

/-- Witness for claim C7 on the concrete results: volume and energy are
taken verbatim and the stress entry is the average of the diagonal
`[1, 2, 3]`, namely `2`. -/
theorem eos_columns_by_index_witness :
    ∃ A, phonopy_qha_arrays (build_input_qha [exPhonon0, exPhonon1]) = .ok A
      ∧ A.volumes[0]? = some (10 : ℚ)
      ∧ A.energies[0]? = some ((-10 : ℚ))
      ∧ A.stresses[0]? = some (npAverage (npDiag [[1, 0, 0], [0, 2, 0], [0, 0, 3]]))
      ∧ npAverage (npDiag [[1, 0, 0], [0, 2, 0], [0, 0, 3]]) = (2 : ℚ) := by
  obtain ⟨A, hA, h⟩ := eos_columns_by_index [exPhonon0, exPhonon1] (by decide) (by decide)
  obtain ⟨hv, he, hs⟩ := h 0
  refine ⟨A, hA, ?_, ?_, ?_, ?_⟩
  · rw [hv]; rfl
  · rw [he]; rfl
  · rw [hs]; rfl
  · have hdiag : npDiag [[1, 0, 0], [0, 2, 0], [0, 0, 3]] = ([1, 2, 3] : List ℚ) := by
      decide
    rw [hdiag, npAverage]
    norm_num

theorem phonopy_qha_returns_set (g : QhaArrays → List (String × List ℚ))
    (kw : Kwargs) :
    ∀ v, phonopy_qha g kw = .ok v → ∃ s r, v = .pySet s r := by
  intro v hv
  rw [phonopy_qha] at hv
  cases h : phonopy_qha_arrays kw with
  | error e =>
      rw [h, ebind_error] at hv
      exact Except.noConfusion hv
  | ok a =>
      rw [h, ebind_ok] at hv
      exact ⟨_, _, (Except.ok.inj hv).symm⟩

/-- Claim C1 (code bug): the final statement of `phonopy_qha` is
`return {'qha_results', qha_results}` — a set literal, not a dict — so the
value returned to `calculate_qha` is never a mapping; subscripting it with
`['qha_results']` raises TypeError, the workchain step aborts, and the
orchestration never publishes any output.  First conjunct: no run of
`calculate_qha`, for any reduction routine and any list of sub-task
results, returns a value.  Second conjunct: on a concrete well-formed
single-result run the failure is exactly the TypeError raised at the
subscript, i.e. aggregation itself succeeded and the set literal is what
broke publication. -/
theorem calculate_qha_never_publishes :
    (∀ (g : QhaArrays → List (String × List ℚ)) (ps : List PhononOut),
        publishes (calculate_qha g ps) = false)
    ∧ calculate_qha (fun _ => []) [exPhonon0]
        = .error (.typeError "set object is not subscriptable") := by
  constructor
  · intro g ps
    rw [calculate_qha]
    cases h : phonopy_qha g (build_input_qha ps) with
    | error e => rfl
    | ok v =>
        obtain ⟨s, r, rfl⟩ := phonopy_qha_returns_set g _ v h
        rfl
  · decide

theorem lookupKw_perm (k : String) : ∀ {l1 l2 : Kwargs}, l1.Perm l2 →
    (l1.map Prod.fst).Nodup → lookupKw l1 k = lookupKw l2 k := by
  intro l1 l2 h
  induction h with
  | nil => intro _; rfl
  | cons x h ih =>
      intro hnd
      rw [List.map_cons, List.nodup_cons] at hnd
      rw [lookupKw_cons, lookupKw_cons, ih hnd.2]
  | swap x y l =>
      intro hnd
      rw [List.map_cons, List.map_cons, List.nodup_cons, List.nodup_cons] at hnd
      rw [lookupKw_cons, lookupKw_cons, lookupKw_cons, lookupKw_cons]
      by_cases hy : (y.1 == k) = true
      · by_cases hx : (x.1 == k) = true
        · exfalso
          have hxy : y.1 = x.1 := (eq_of_beq hy).trans (eq_of_beq hx).symm
          exact hnd.1 (hxy ▸ List.mem_cons_self x.1 (l.map Prod.fst))
        · simp [hy, hx]
      · simp [hy]
  | trans h1 h2 ih1 ih2 =>
      intro hnd
      rw [ih1 hnd, ih2 (((h1.map Prod.fst).nodup_iff).mp hnd)]

theorem n_structures_perm {l1 l2 : Kwargs} (h : l1.Perm l2) :
    n_structures l1 = n_structures l2 :=
  (h.filter _).length_eq

theorem stepResult_congr {kw1 kw2 : Kwargs}
    (hl : ∀ k, lookupKw kw1 k = lookupKw kw2 k) (i : ℕ) :
    stepResult kw1 i = stepResult kw2 i := by
  simp only [stepResult_eq, popStructure, popOutputData, popThermal, hl]

theorem mapM_congr_step {kw1 kw2 : Kwargs}
    (hl : ∀ k, lookupKw kw1 k = lookupKw kw2 k) :
    ∀ l : List ℕ, l.mapM (stepResult kw1) = l.mapM (stepResult kw2) := by
  intro l
  induction l with
  | nil => rfl
  | cons a t ih => rw [List.mapM_cons, List.mapM_cons, stepResult_congr hl, ih]

/-- Claim C9: the aggregation of `phonopy_qha` depends only on which value
is bound to which index key, never on the order in which the keyword bag
was populated: permuting the bag (any completion/arrival order of the N
fan-out tasks) leaves the aggregated arrays identical, because every array
entry is reconstructed by looking up the index-`i` keys. -/
theorem aggregation_completion_order_irrelevant (kw1 kw2 : Kwargs)
    (hnd : (kw1.map Prod.fst).Nodup) (hperm : kw1.Perm kw2) :
    phonopy_qha_arrays kw1 = phonopy_qha_arrays kw2 := by
  have hl : ∀ k, lookupKw kw1 k = lookupKw kw2 k :=
    fun k => lookupKw_perm k hperm hnd
  rw [phonopy_qha_arrays, phonopy_qha_arrays, n_structures_perm hperm,
    collectResults, collectResults, mapM_congr_step hl]

/-- Witness for claim C9: the bag built in planning order and a shuffled
bag (different completion order) aggregate to identical arrays. -/
theorem aggregation_completion_order_irrelevant_witness :
    phonopy_qha_arrays (build_input_qha [exPhonon0, exPhonon1])
      = phonopy_qha_arrays kwShuffled :=
  aggregation_completion_order_irrelevant _ kwShuffled (by decide) (by decide)

theorem mapM_ok_inverts {l : List ℕ} {g : ℕ → Except PyErr ResultTriple}
    {rs : List ResultTriple} (h : l.mapM g = .ok rs) :
    rs.length = l.length ∧ ∀ a ∈ l, ∃ b, g a = .ok b := by
  induction l generalizing rs with
  | nil =>
      have h0 : Except.ok ([] : List ResultTriple) = Except.ok rs := h
      obtain rfl := Except.ok.inj h0
      exact ⟨rfl, fun a ha => absurd ha (List.not_mem_nil a)⟩
  | cons a t ih =>
      rw [List.mapM_cons] at h
      cases hg : g a with
      | error e =>
          rw [hg, ebind_error] at h
          exact Except.noConfusion h
      | ok b =>
          rw [hg, ebind_ok] at h
          cases ht : t.mapM g with
          | error e =>
              rw [ht, ebind_error] at h
              exact Except.noConfusion h
          | ok bs =>
              rw [ht, ebind_ok] at h
              have h0 : Except.ok (b :: bs) = Except.ok rs := h
              obtain rfl := Except.ok.inj h0
              obtain ⟨ih1, ih2⟩ := ih ht
              refine ⟨by rw [List.length_cons, List.length_cons, ih1], ?_⟩
              intro x hx
              rcases List.mem_cons.mp hx with rfl | hxt
              · exact ⟨b, hg⟩
              · exact ih2 x hxt

theorem collect_ok_all {kw : Kwargs} {n : ℕ} {rs : List ResultTriple}
    (h : collectResults kw n = .ok rs) :
    rs.length = n ∧ ∀ i : ℕ, i < n → ∃ b, stepResult kw i = .ok b := by
  rw [collectResults] at h
  obtain ⟨h1, h2⟩ := mapM_ok_inverts h
  exact ⟨h1.trans (List.length_range n), fun i hi0 => h2 i (List.mem_range.mpr hi0)⟩

theorem stepResult_ok_lookups {kw : Kwargs} {i : ℕ} {b : ResultTriple}
    (h : stepResult kw i = .ok b) : ¬ missingAt kw i := by
  intro hm
  rw [stepResult_eq] at h
  rcases hm with h1 | h2 | h3
  · rw [popStructure_none h1, ebind_error] at h
    exact Except.noConfusion h
  · cases hs : popStructure kw ("structure_" ++ toString i) with
    | error e =>
        rw [hs, ebind_error] at h
        exact Except.noConfusion h
    | ok s =>
        rw [hs, ebind_ok, popOutputData_none h2, ebind_error] at h
        exact Except.noConfusion h
  · cases hs : popStructure kw ("structure_" ++ toString i) with
    | error e =>
        rw [hs, ebind_error] at h
        exact Except.noConfusion h
    | ok s =>
        cases hd : popOutputData kw ("output_data_" ++ toString i) with
        | error e =>
            rw [hs, ebind_ok, hd, ebind_error] at h
            exact Except.noConfusion h
        | ok d =>
            rw [hs, ebind_ok, hd, ebind_ok, popThermal_none h3, ebind_error] at h
            exact Except.noConfusion h

theorem stepResult_missing_keyError {kw : Kwargs} {i : ℕ}
    (hty : typedAt kw i) (hm : missingAt kw i) :
    ∃ k, stepResult kw i = .error (.keyError k) := by
  obtain ⟨t1, t2, t3⟩ := hty
  rw [stepResult_eq]
  cases hs : lookupKw kw ("structure_" ++ toString i) with
  | none => exact ⟨_, by rw [popStructure_none hs, ebind_error]⟩
  | some v =>
    obtain ⟨s, rfl⟩ : ∃ s, v = Value.structureVal s := by
      rw [hs] at t1
      cases v with
      | structureVal s => exact ⟨s, rfl⟩
      | outputDataVal d => simp [okStructureOpt] at t1
      | thermalVal t => simp [okStructureOpt] at t1
    rw [popStructure_some hs, ebind_ok]
    cases hd : lookupKw kw ("output_data_" ++ toString i) with
    | none => exact ⟨_, by rw [popOutputData_none hd, ebind_error]⟩
    | some w =>
      obtain ⟨d, rfl⟩ : ∃ d, w = Value.outputDataVal d := by
        rw [hd] at t2
        cases w with
        | structureVal s2 => simp [okOutputOpt] at t2
        | outputDataVal d => exact ⟨d, rfl⟩
        | thermalVal t => simp [okOutputOpt] at t2
      rw [popOutputData_some hd, ebind_ok]
      cases ht : lookupKw kw ("thermal_properties_" ++ toString i) with
      | none => exact ⟨_, by rw [popThermal_none ht, ebind_error]⟩
      | some u =>
        exfalso
        rcases hm with h1 | h2 | h3
        · rw [h1] at hs; exact Option.noConfusion hs
        · rw [h2] at hd; exact Option.noConfusion hd
        · rw [h3] at ht; exact Option.noConfusion ht

theorem stepResult_ok_of_typed {kw : Kwargs} {i : ℕ}
    (hty : typedAt kw i) (hm : ¬ missingAt kw i) :
    ∃ b, stepResult kw i = .ok b := by
  obtain ⟨t1, t2, t3⟩ := hty
  rw [missingAt] at hm
  push_neg at hm
  obtain ⟨h1, h2, h3⟩ := hm
  rw [stepResult_eq]
  cases hs : lookupKw kw ("structure_" ++ toString i) with
  | none => exact absurd hs h1
  | some v =>
    obtain ⟨s, rfl⟩ : ∃ s, v = Value.structureVal s := by
      rw [hs] at t1
      cases v with
      | structureVal s => exact ⟨s, rfl⟩
      | outputDataVal d => simp [okStructureOpt] at t1
      | thermalVal t => simp [okStructureOpt] at t1
    cases hd : lookupKw kw ("output_data_" ++ toString i) with
    | none => exact absurd hd h2
    | some w =>
      obtain ⟨d, rfl⟩ : ∃ d, w = Value.outputDataVal d := by
        rw [hd] at t2
        cases w with
        | structureVal s2 => simp [okOutputOpt] at t2
        | outputDataVal d => exact ⟨d, rfl⟩
        | thermalVal t => simp [okOutputOpt] at t2
      cases ht : lookupKw kw ("thermal_properties_" ++ toString i) with
      | none => exact absurd ht h3
      | some u =>
        obtain ⟨t0, rfl⟩ : ∃ t0, u = Value.thermalVal t0 := by
          rw [ht] at t3
          cases u with
          | structureVal s2 => simp [okThermalOpt] at t3
          | outputDataVal d2 => simp [okThermalOpt] at t3
          | thermalVal t0 => exact ⟨t0, rfl⟩
        refine ⟨⟨s, d, t0⟩, ?_⟩
        rw [popStructure_some hs, ebind_ok, popOutputData_some hd, ebind_ok,
          popThermal_some ht, ebind_ok]
        rfl

theorem mapM_first_error (kw : Kwargs) :
    ∀ (l : List ℕ),
      (∀ i ∈ l, typedAt kw i) →
      (∃ i ∈ l, missingAt kw i) →
      ∃ k, l.mapM (stepResult kw) = .error (.keyError k) := by
  intro l
  induction l with
  | nil =>
      intro _ h
      obtain ⟨i, hi0, _⟩ := h
      exact absurd hi0 (List.not_mem_nil i)
  | cons a t ih =>
      intro hty hex
      rw [List.mapM_cons]
      by_cases hma : missingAt kw a
      · obtain ⟨k, hk⟩ :=
          stepResult_missing_keyError (hty a (List.mem_cons_self a t)) hma
        exact ⟨k, by rw [hk, ebind_error]⟩
      · obtain ⟨b, hb⟩ := stepResult_ok_of_typed (hty a (List.mem_cons_self a t)) hma
        obtain ⟨i, hi0, him⟩ := hex
        have hit : i ∈ t := by
          rcases List.mem_cons.mp hi0 with rfl | hmem
          · exact absurd him hma
          · exact hmem
        obtain ⟨k, hk⟩ :=
          ih (fun j hj => hty j (List.mem_cons_of_mem a hj)) ⟨i, hit, him⟩
        exact ⟨k, by rw [hb, ebind_ok, hk, ebind_error]⟩

/-- Claim C10: `phonopy_qha` fixes the fan-in width `N` by counting the
keywords whose lowercased key contains the substring `structure_`, and the
loop then unconditionally reads the keys `structure_i`, `output_data_i`
and `thermal_properties_i` for every `i < N`.  First conjunct: a
successful aggregation has arrays of length `N` and implies all three keys
were present for every `i < N`.  Second conjunct: if every binding that is
present is well typed and one of the three keys is absent for some
`i < N`, the whole aggregation stops with a KeyError — no sample is
skipped and no default is substituted. -/
theorem fan_in_width_and_missing_keys (kwargs : Kwargs) :
    (∀ A, phonopy_qha_arrays kwargs = .ok A →
        A.volumes.length = n_structures kwargs
        ∧ ∀ i : ℕ, i < n_structures kwargs → ¬ missingAt kwargs i)
    ∧ ((∀ i : ℕ, i < n_structures kwargs → typedAt kwargs i) →
        ∀ i : ℕ, i < n_structures kwargs → missingAt kwargs i →
          ∃ k, phonopy_qha_arrays kwargs = .error (.keyError k)) := by
  constructor
  · intro A hA
    rw [phonopy_qha_arrays] at hA
    cases hc : collectResults kwargs (n_structures kwargs) with
    | error e =>
        rw [hc, ebind_error] at hA
        exact Except.noConfusion hA
    | ok rs =>
        rw [hc, ebind_ok] at hA
        have h0 : Except.ok
            (⟨rs.map (fun r => r.struct.get_cell_volume),
              rs.map (fun r => r.odata.energy),
              rs.map (fun r => npAverage (npDiag r.odata.stress)),
              npT (rs.map (fun r => r.tprops.entropy)),
              rs.map (fun r => r.tprops.free_energy),
              npT (rs.map (fun r => r.tprops.heat_capacity)),
              rs.getLast?.map (fun r => r.tprops.temperture)⟩ : QhaArrays)
            = Except.ok A := hA
        obtain rfl := Except.ok.inj h0
        obtain ⟨hlen, hsteps⟩ := collect_ok_all hc
        constructor
        · show (rs.map (fun r => r.struct.get_cell_volume)).length
              = n_structures kwargs
          rw [List.length_map, hlen]
        · intro i hi0
          obtain ⟨b, hb⟩ := hsteps i hi0
          exact stepResult_ok_lookups hb
  · intro hty i hi0 him
    obtain ⟨k, hk⟩ := mapM_first_error kwargs (List.range (n_structures kwargs))
        (fun j hj => hty j (List.mem_range.mp hj))
        ⟨i, List.mem_range.mpr hi0, him⟩
    exact ⟨k, by rw [phonopy_qha_arrays, collectResults, hk, ebind_error]⟩

/-- Witness for claim C10 on the concrete bag `badKw`: the `structure_`
count is 2, every present binding is well typed, `output_data_1` is
absent, and aggregation indeed stops with a KeyError. -/
theorem fan_in_width_and_missing_keys_witness :
    ∃ k, phonopy_qha_arrays badKw = .error (.keyError k) :=
  (fan_in_width_and_missing_keys badKw).2 (by decide) 1 (by decide) (by decide)
